import Mathlib

/-!
Verification development for the SQL execution engine in
`sql_execution_server.py` (QueryAnalyzer, ConnectionPool, QueryExecutor,
TransactionManager).  Python fragments relevant to the claims are embedded
shallowly: pure functions become Lean functions, the stateful connection
pool becomes a step relation on an explicit state type, and exceptions
become `Except` values.
-/

namespace Fusion

/-! ## Query types (class QueryType) -/

inductive QueryType where
  | SELECT | INSERT | UPDATE | DELETE | CREATE | DROP | ALTER | TRUNCATE
  | BEGIN | COMMIT | ROLLBACK | PRAGMA | EXPLAIN | ATTACH | DETACH | VACUUM
  | UNKNOWN
deriving DecidableEq, Repr

/-! ## Character-level regex machinery

`QueryAnalyzer._QUERY_PATTERNS` matches `^\s*KEYWORD\b` case-insensitively
against `sql.strip()`.  We model strings as `List Char`.  `isWordChar`
models the regex word class `\w` (ASCII fragment, enough for the keyword
boundary checks); `Char.isWhitespace` models `\s` and Python `str.strip`'s
whitespace class. -/

def isWordChar (c : Char) : Bool := c.isAlpha || c.isDigit || c = '_'

/-- `kwMatch kw s` : does `s` start (case-insensitively) with the keyword
`kw`, followed by a word boundary (`\b`), i.e. end-of-string or a
non-word character? -/
def kwMatch : List Char → List Char → Bool
  | [], [] => true
  | [], c :: _ => !(isWordChar c)
  | _ :: _, [] => false
  | k :: ks, c :: cs => (k.toLower == c.toLower) && kwMatch ks cs

/-- Removal of trailing whitespace (the right half of Python `str.strip`). -/
def rstripCh : List Char → List Char
  | [] => []
  | c :: cs =>
    match rstripCh cs with
    | [] => if c.isWhitespace then [] else [c]
    | d :: ds => c :: d :: ds

/-- Python `str.strip()`: drop leading and trailing whitespace. -/
def pyStrip (l : List Char) : List Char := rstripCh (l.dropWhile Char.isWhitespace)

/-- One compiled pattern `^\s*KW\b` applied to a string `t`: the regex
skips leading whitespace (`\s*` is greedy and `kw` starts with a non-space
character, so a match exists iff the keyword matches after the whole
leading whitespace run). -/
def regexKwTest (kw : List Char) (t : List Char) : Bool :=
  kwMatch kw (t.dropWhile Char.isWhitespace)

/-- The ordered pattern table `QueryAnalyzer._QUERY_PATTERNS`. -/
def queryTable : List (List Char × QueryType) :=
  [("SELECT".data, .SELECT), ("INSERT".data, .INSERT), ("UPDATE".data, .UPDATE),
   ("DELETE".data, .DELETE), ("CREATE".data, .CREATE), ("DROP".data, .DROP),
   ("ALTER".data, .ALTER), ("TRUNCATE".data, .TRUNCATE), ("BEGIN".data, .BEGIN),
   ("COMMIT".data, .COMMIT), ("ROLLBACK".data, .ROLLBACK), ("PRAGMA".data, .PRAGMA),
   ("EXPLAIN".data, .EXPLAIN), ("ATTACH".data, .ATTACH), ("DETACH".data, .DETACH),
   ("VACUUM".data, .VACUUM)]

/-- First-match-wins scan of a pattern table; no match gives `UNKNOWN`. -/
def classifyWith (test : List Char → List Char → Bool) (t : List Char) :
    List (List Char × QueryType) → QueryType
  | [] => .UNKNOWN
  | (kw, qt) :: rest => if test kw t then qt else classifyWith test t rest

/-- `QueryAnalyzer.determine_type`: strip the SQL, then try the ordered
pattern table, returning `UNKNOWN` when nothing matches. -/
def determine_type (sql : String) : QueryType :=
  classifyWith regexKwTest (pyStrip sql.data) queryTable

/-- Classifier written directly from the spec's words ("matches the leading
keyword (case-insensitive, leading whitespace ignored) against an ordered
table ...; first match wins; no match → UNKNOWN"): only leading whitespace
is dropped, then the keyword+boundary test is applied. -/
def specDetermineType (sql : String) : QueryType :=
  classifyWith kwMatch (sql.data.dropWhile Char.isWhitespace) queryTable

/-! ## Security linting (`QueryAnalyzer.validate_security`) -/

/-- The three shapes appearing in `_DANGEROUS_PATTERNS`:
`stack kw` is `;\s*KW\b`, `lit w` a literal (case-insensitive) substring,
`wsJoin w1 w2` is `W1\s+W2`. -/
inductive DangerPat where
  | stack (kw : String)
  | lit (w : String)
  | wsJoin (w1 w2 : String)
deriving DecidableEq, Repr

/-- Case-insensitive "starts with" without any boundary requirement. -/
def ciStarts : List Char → List Char → Bool
  | [], _ => true
  | _ :: _, [] => false
  | k :: ks, c :: cs => (k.toLower == c.toLower) && ciStarts ks cs

/-- Does the pattern match at the start of `s`?  For `stack` and `wsJoin`
the `\s*`/`\s+` runs are consumed entirely: the following keyword begins
with a non-space character, so a regex match exists exactly under this
test. -/
def patMatchAt : DangerPat → List Char → Bool
  | .stack kw, ';' :: rest =>
      kwMatch kw.data (rest.dropWhile Char.isWhitespace)
  | .stack _, _ => false
  | .lit w, s => ciStarts w.data s
  | .wsJoin w1 w2, s =>
      ciStarts w1.data s &&
      (match s.drop w1.length with
       | [] => false
       | c :: cs => c.isWhitespace && ciStarts w2.data (cs.dropWhile Char.isWhitespace))

/-- `re.search`: does the pattern match at some position of `s`? -/
def patSearch (p : DangerPat) : List Char → Bool
  | [] => patMatchAt p []
  | c :: cs => patMatchAt p (c :: cs) || patSearch p cs

/-- Number of positions of `s` at which the pattern matches (used to state
the distinction between per-occurrence and per-pattern warnings). -/
def patCount (p : DangerPat) : List Char → Nat
  | [] => if patMatchAt p [] then 1 else 0
  | c :: cs => (if patMatchAt p (c :: cs) then 1 else 0) + patCount p cs

/-- `QueryAnalyzer._DANGEROUS_PATTERNS`, each with its regex source text
(used in the warning message, as Python interpolates `pattern.pattern`). -/
def dangerousPatterns : List (DangerPat × String) :=
  [(.stack "DROP", ";\\s*DROP\\b"), (.stack "DELETE", ";\\s*DELETE\\b"),
   (.stack "UPDATE", ";\\s*UPDATE\\b"), (.stack "INSERT", ";\\s*INSERT\\b"),
   (.stack "CREATE", ";\\s*CREATE\\b"), (.stack "ALTER", ";\\s*ALTER\\b"),
   (.lit "--", "--"), (.lit "/*", "/\\*"),
   (.wsJoin "UNION" "SELECT", "UNION\\s+SELECT"),
   (.wsJoin "INTO" "OUTFILE", "INTO\\s+OUTFILE"),
   (.lit "LOAD_FILE", "LOAD_FILE")]

/-- `QueryAnalyzer.validate_security`: one warning per dangerous pattern
found (when `allow_dangerous` is false), plus a length warning for queries
longer than 100000 characters. -/
def validate_security (sql : String) (allowDangerous : Bool) : List String :=
  let warnings :=
    if allowDangerous then []
    else
      (dangerousPatterns.filter (fun pr => patSearch pr.1 sql.data)).map
        (fun pr => "Potentially dangerous pattern detected: " ++ pr.2)
  if sql.length > 100000 then warnings ++ ["Query exceeds recommended length"]
  else warnings

/-- `QueryAnalyzer.is_read_only`. -/
def is_read_only (qt : QueryType) : Bool :=
  qt = QueryType.SELECT || qt = QueryType.PRAGMA || qt = QueryType.EXPLAIN

/-! ### Stripping lemmas for `determine_type`

The code matches against `sql.strip()` while the spec only speaks of
ignoring *leading* whitespace; the lemmas below show removing trailing
whitespace cannot change a keyword+boundary match. -/

/-- Characters usable in the keyword table: word characters, stable under
`toLower`, never whitespace. -/
def kwOkC (k : Char) : Bool :=
  isWordChar k && !k.isWhitespace && isWordChar k.toLower && !k.toLower.isWhitespace

def kwOk (kw : List Char) : Bool := kw.all kwOkC

/-! ## Request/result model and the query executor -/

inductive IsolationLevel where
  | NONE | DEFERRED | IMMEDIATE | EXCLUSIVE
deriving DecidableEq, Repr

/-- `IsolationLevel.value` in the code: `NONE` carries Python `None`. -/
def isoValue : IsolationLevel → Option String
  | .NONE => none
  | .DEFERRED => some "DEFERRED"
  | .IMMEDIATE => some "IMMEDIATE"
  | .EXCLUSIVE => some "EXCLUSIVE"

/-- Python truthiness of `request.isolation_level.value` (`None` and the
empty string are falsy). -/
def isoTruthy (l : IsolationLevel) : Bool :=
  match isoValue l with
  | none => false
  | some s => !s.isEmpty

inductive ExecStatus where
  | pending | running | success | error | cancelled | timeout
deriving DecidableEq, Repr

/-- A fetched row (`tuple(row)` in the code); the cell type is opaque to
all the control flow, `Int` stands in for SQLite values. -/
abbrev Row := List Int

/-- `QueryRequest` with the dataclass's default values (`execution` does
not read `query_id`'s generator, so it is a plain field here). -/
structure QueryRequest where
  sql : String
  params : List Int := []
  queryId : String := ""
  timeout : Option Nat := none
  isolationLevel : IsolationLevel := .DEFERRED
  readOnly : Bool := false
  rowLimit : Option Int := none
  fetchSize : Nat := 1000
  metadata : List (String × String) := []
deriving DecidableEq, Repr

/-- `mkQueryRequest sql` is `QueryRequest(sql=sql)`: every other field at
its dataclass default. -/
def mkQueryRequest (sql : String) : QueryRequest := { sql := sql }

/-- A `QueryRequest` constructed *without specifying `isolation_level`*:
every other dataclass field is supplied by the caller, and
`isolation_level` alone takes its default from the structure. -/
def mkRequestNoIso (sql : String) (params : List Int) (queryId : String)
    (timeout : Option Nat) (readOnly : Bool) (rowLimit : Option Int)
    (fetchSize : Nat) (metadata : List (String × String)) : QueryRequest :=
  { sql := sql, params := params, queryId := queryId, timeout := timeout,
    readOnly := readOnly, rowLimit := rowLimit, fetchSize := fetchSize,
    metadata := metadata }

/-- A request with non-default fields (`read_only = True`, small
`fetch_size`) whose SELECT passes the read-only check. -/
def reqReadOnlySelect : QueryRequest :=
  { sql := "SELECT 1", queryId := "q-w9", readOnly := true, fetchSize := 7 }

/-- `QueryResult` (the float `execution_time` is wall-clock time and is
not modelled). -/
structure QueryResult where
  queryId : String
  status : ExecStatus
  rows : List Row
  columns : List String
  rowCount : Nat
  affectedRows : Int
  lastRowId : Option Int
  queryType : QueryType
  error : Option String
  warnings : List String
  metadata : List (String × String)
deriving DecidableEq, Repr

/-- Outcome of `ConnectionPool._acquire_wrapper` as seen by `execute`:
success, an `asyncio.TimeoutError` escaping `asyncio.wait_for`, or a
`ConnectionPoolExhausted` raised for a closed pool / an already-elapsed
deadline. -/
inductive AcqOutcome where
  | ok
  | timeoutErr
  | poolClosed
  | deadlineElapsed
deriving DecidableEq, Repr

/-- The environment `execute` runs against: the pool/driver behaviour and
the cancellation flag's value at each observation point.
`cancelAtBatch k` is the value of `cancel_event.is_set()` at the `k`-th
check at the top of the fetch loop (`k = 0` before the first fetch). -/
structure ExecEnv where
  acq : AcqOutcome
  cancelAtAcquire : Bool := false
  cancelAtBatch : Nat → Bool := fun _ => false
  beginError : Option String := none
  execError : Option String := none
  commitError : Option String := none
  resultRows : List Row := []
  columns : List String := []
  affectedRows : Int := 0
  lastRowId : Option Int := none

/-- Truthiness test `request.row_limit and row_count >= request.row_limit`
(`None` and `0` are falsy). -/
def limitHit (rl : Option Int) (count : Nat) : Bool :=
  match rl with
  | none => false
  | some n => (n != 0) && decide (n ≤ (count : Int))

/-- The inner `for row in batch` loop: append rows and count them, but
break out as soon as the row limit test fires. -/
def addBatch (rl : Option Int) : List Row → List Row → Nat → List Row × Nat
  | [], acc, count => (acc, count)
  | r :: rest, acc, count =>
    if limitHit rl count then (acc, count)
    else addBatch rl rest (acc ++ [r]) (count + 1)

/-- The `while True` fetch loop, fuelled for structural recursion; each
iteration checks the cancellation flag, fetches `fetchSize` rows
(`cursor.fetchmany`), folds them in with `addBatch`, and stops on an empty
batch or once the row limit is reached.  `.error ()` is
`QueryCancelledException`.  The fuel only needs to exceed the number of
iterations; `selectLoop` below supplies `remaining.length + 1`, which
suffices because every iteration that recurses consumes at least one
remaining row. -/
def selectLoopF (fetchSize : Nat) (rl : Option Int) (cancelAt : Nat → Bool) :
    Nat → Nat → List Row → List Row → Nat → Except Unit (List Row × Nat)
  | 0, _, _, acc, count => .ok (acc, count)
  | fuel + 1, k, remaining, acc, count =>
    if cancelAt k then .error ()
    else
      let batch := remaining.take fetchSize
      if batch.isEmpty then .ok (acc, count)
      else
        let p := addBatch rl batch acc count
        if limitHit rl p.2 then .ok (p.1, p.2)
        else selectLoopF fetchSize rl cancelAt fuel (k + 1) (remaining.drop fetchSize) p.1 p.2

def selectLoop (fetchSize : Nat) (rl : Option Int) (cancelAt : Nat → Bool)
    (remaining : List Row) : Except Unit (List Row × Nat) :=
  selectLoopF fetchSize rl cancelAt (remaining.length + 1) 0 remaining [] 0

/-- The exceptions caught by `execute`'s handlers. -/
inductive ExecExc where
  | cancelled
  | timeoutError
  | generic (msg : String)
deriving DecidableEq, Repr

/-- The body of the `try` block after the read-only check: acquire a
connection, re-check cancellation, optionally `BEGIN <level>`, run the
statement, then stream (SELECT) or commit (other).  Returns the produced
result or the escaping exception, together with the list of SQL texts
passed to `conn.execute` (used to observe `BEGIN` emission). -/
def tryBody (req : QueryRequest) (env : ExecEnv) (qt : QueryType)
    (warnings : List String) : Except ExecExc QueryResult × List String :=
  match env.acq with
  | .timeoutErr => (.error .timeoutError, [])
  | .poolClosed => (.error (.generic "Pool is closed"), [])
  | .deadlineElapsed => (.error (.generic "Timeout waiting for connection"), [])
  | .ok =>
    if env.cancelAtAcquire then (.error .cancelled, [])
    else
      let bstmts : List String :=
        match isoValue req.isolationLevel with
        | some v => if isoTruthy req.isolationLevel then ["BEGIN " ++ v] else []
        | none => []
      match env.beginError, bstmts with
      | some m, _ :: _ => (.error (.generic m), bstmts)
      | _, _ =>
        let issued := bstmts ++ [req.sql]
        match env.execError with
        | some m => (.error (.generic m), issued)
        | none =>
          if qt = QueryType.SELECT then
            match selectLoop req.fetchSize req.rowLimit env.cancelAtBatch env.resultRows with
            | .error _ => (.error .cancelled, issued)
            | .ok p =>
              (.ok { queryId := req.queryId, status := .success, rows := p.1,
                     columns := env.columns, rowCount := p.2, affectedRows := 0,
                     lastRowId := none, queryType := qt, error := none,
                     warnings := warnings, metadata := req.metadata }, issued)
          else
            match env.commitError with
            | some m => (.error (.generic m), issued)
            | none =>
              (.ok { queryId := req.queryId, status := .success, rows := [],
                     columns := [], rowCount := 0, affectedRows := env.affectedRows,
                     lastRowId := env.lastRowId, queryType := qt, error := none,
                     warnings := warnings, metadata := req.metadata }, issued)

/-- What `execute` leaves behind, besides the result: the SQL statements
issued on the acquired connection and whether pool acquisition was ever
attempted (the read-only rejection happens before `pool.acquire`). -/
structure ExecCore where
  result : QueryResult
  issued : List String
  acquireAttempted : Bool
deriving DecidableEq, Repr

/-- A failure `QueryResult` as built by the three `except` handlers (which
reset `rows`/`warnings` and recompute the query type). -/
def handlerResult (req : QueryRequest) (st : ExecStatus) (msg : String) : QueryResult :=
  { queryId := req.queryId, status := st, rows := [], columns := [], rowCount := 0,
    affectedRows := 0, lastRowId := none, queryType := determine_type req.sql,
    error := some msg, warnings := [], metadata := req.metadata }

/-- `QueryExecutor.execute` without the active-query bookkeeping:
classify, lint, enforce the read-only policy, then run `tryBody` and
translate escaped exceptions through the `except` handlers
(`QueryCancelledException` → CANCELLED, `asyncio.TimeoutError` → TIMEOUT,
anything else → ERROR with `str(e)`). -/
def executeCore (req : QueryRequest) (env : ExecEnv) : ExecCore :=
  let qt := determine_type req.sql
  let warnings := validate_security req.sql false
  if req.readOnly && !(is_read_only qt) then
    { result := { queryId := req.queryId, status := .error, rows := [], columns := [],
                  rowCount := 0, affectedRows := 0, lastRowId := none, queryType := qt,
                  error := some "Write operations not allowed in read-only mode",
                  warnings := warnings, metadata := req.metadata },
      issued := [], acquireAttempted := false }
  else
    let p := tryBody req env qt warnings
    match p.1 with
    | .ok res => { result := res, issued := p.2, acquireAttempted := true }
    | .error .cancelled =>
        { result := handlerResult req .cancelled "Query was cancelled",
          issued := p.2, acquireAttempted := true }
    | .error .timeoutError =>
        { result := handlerResult req .timeout "Query timed out",
          issued := p.2, acquireAttempted := true }
    | .error (.generic m) =>
        { result := handlerResult req .error m,
          issued := p.2, acquireAttempted := true }

/-- `QueryExecutor.execute` including the `_active_queries` bookkeeping:
the query id is registered on entry and popped in the `finally` block on
every exit path.  Returns the core outcome and the active-query set after
the call. -/
def execute (req : QueryRequest) (env : ExecEnv) (active : Finset String) :
    ExecCore × Finset String :=
  (executeCore req env, (insert req.queryId active).erase req.queryId)

/-- `QueryExecutor.cancel`: true exactly when the query id is currently
registered (in which case the code also sets the event, which does not
change the set of registered ids). -/
def cancelQuery (active : Finset String) (queryId : String) : Bool :=
  if queryId ∈ active then true else false

/-! ### Concrete sample requests and environments -/

def envOkEmpty : ExecEnv := { acq := .ok }

def envPoolClosed : ExecEnv := { acq := .poolClosed }

def envTimeoutWait : ExecEnv := { acq := .timeoutErr }

def reqReadOnlyDelete : QueryRequest :=
  { sql := "DELETE FROM t", queryId := "q-ro", readOnly := true }

def reqSelectOne : QueryRequest := { sql := "SELECT 1", queryId := "q-sel" }

def reqLimitZero : QueryRequest :=
  { sql := "SELECT * FROM t", queryId := "q-l0", rowLimit := some 0 }

def envOneRow : ExecEnv := { acq := .ok, resultRows := [[7]], columns := ["a"] }

def reqLimitFive : QueryRequest :=
  { sql := "SELECT * FROM t", queryId := "q-l5", rowLimit := some 5, fetchSize := 3 }

def envSevenRows : ExecEnv :=
  { acq := .ok, resultRows := [[1], [2], [3], [4], [5], [6], [7]], columns := ["a"] }

def reqFetchTwo : QueryRequest :=
  { sql := "SELECT * FROM t", queryId := "q-c", fetchSize := 2 }

def envCancelSecond : ExecEnv :=
  { acq := .ok, cancelAtBatch := fun k => decide (1 ≤ k),
    resultRows := [[1], [2], [3], [4]], columns := ["a"] }

/-! ## Connection pool (class ConnectionPool)

Wrappers are identified by the order of their creation (`nextId` is the
next fresh identifier).  `idle` is the deque `_pool` (append right, pop
left), `inUse` the set `_in_use`.  Each lock-protected critical section of
the Python code is one atomic step of the relation below; the age/idle-time
comparisons, which depend on wall-clock time, appear as nondeterministic
branch choices. -/

structure PoolConfig where
  minConnections : Nat
  maxConnections : Nat
deriving DecidableEq, Repr

structure PoolState where
  idle : List Nat
  inUse : Finset Nat
  nextId : Nat
  closed : Bool
deriving DecidableEq

/-- State after `initialize()`: `min_connections` fresh wrappers in the
idle deque. -/
def initPool (cfg : PoolConfig) : PoolState :=
  { idle := List.range cfg.minConnections, inUse := ∅,
    nextId := cfg.minConnections, closed := false }

/-- One lock-protected transition of the pool.  `acquireIdle` and
`acquireCreate` are the two successful paths of `_acquire_wrapper`
(an acquisition on a non-empty deque pops the left end; creation happens
only when the deque is empty and `len(_in_use) < max_connections`).
The three release constructors are the paths of `_release_wrapper`:
return a young-enough wrapper to the deque, or close an aged one —
eagerly creating a replacement when the total would drop below
`min_connections`.  `maintenanceSweep` is `_cleanup_idle_connections`,
which only ever removes wrappers from the idle deque, and `closePool` is
`close()`. -/
inductive PoolStep (cfg : PoolConfig) : PoolState → PoolState → Prop
  | acquireIdle (s : PoolState) (w : Nat) (rest : List Nat)
      (hcl : s.closed = false) (hp : s.idle = w :: rest) :
      PoolStep cfg s { s with idle := rest, inUse := insert w s.inUse }
  | acquireCreate (s : PoolState)
      (hcl : s.closed = false) (hempty : s.idle = [])
      (hcap : s.inUse.card < cfg.maxConnections) :
      PoolStep cfg s
        { s with inUse := insert s.nextId s.inUse, nextId := s.nextId + 1 }
  | releaseKeep (s : PoolState) (w : Nat) (hw : w ∈ s.inUse) :
      PoolStep cfg s { s with idle := s.idle ++ [w], inUse := s.inUse.erase w }
  | releaseClose (s : PoolState) (w : Nat) (hw : w ∈ s.inUse)
      (hmin : cfg.minConnections ≤ s.idle.length + (s.inUse.erase w).card) :
      PoolStep cfg s { s with inUse := s.inUse.erase w }
  | releaseCloseReplace (s : PoolState) (w : Nat) (hw : w ∈ s.inUse)
      (hmin : s.idle.length + (s.inUse.erase w).card < cfg.minConnections) :
      PoolStep cfg s
        { s with idle := s.idle ++ [s.nextId], inUse := s.inUse.erase w,
                 nextId := s.nextId + 1 }
  | maintenanceSweep (s : PoolState) (idle2 : List Nat) (hsub : idle2.Sublist s.idle) :
      PoolStep cfg s { s with idle := idle2 }
  | closePool (s : PoolState) :
      PoolStep cfg s { s with idle := [], inUse := ∅, closed := true }

/-- The pool states reachable from `initialize()` under any sequence of
acquire/release/maintenance/close operations. -/
inductive PoolReachable (cfg : PoolConfig) : PoolState → Prop
  | init : PoolReachable cfg (initPool cfg)
  | step {s s' : PoolState} : PoolReachable cfg s → PoolStep cfg s s' →
      PoolReachable cfg s'

/-- The strengthened pool invariant: the idle deque holds distinct
wrappers, no idle wrapper is in use, every live wrapper id is below the
fresh-id counter, and the total number of wrappers is bounded by
`max_connections`. -/
def PoolInv (cfg : PoolConfig) (s : PoolState) : Prop :=
  s.idle.Nodup ∧
  (∀ w ∈ s.idle, w ∉ s.inUse) ∧
  (∀ w ∈ s.idle, w < s.nextId) ∧
  (∀ w ∈ s.inUse, w < s.nextId) ∧
  s.idle.length + s.inUse.card ≤ cfg.maxConnections

/-! ## Transaction manager (class TransactionManager) -/

/-- `_active_transactions`: transaction id → ordered log of submitted SQL. -/
abbrev TxState := List (String × List String)

/-- `TransactionManager.commit`: require the entry to exist, then delete
it.  The second component of a successful result is the list of SQL
statements issued on any database connection — always empty, because the
method only touches the bookkeeping dict. -/
def tx_commit (txId : String) (st : TxState) : Except String (TxState × List String) :=
  match st.lookup txId with
  | none => .error ("Transaction " ++ txId ++ " not found")
  | some _ => .ok (st.eraseP (fun e => e.1 == txId), [])

/-- `TransactionManager.rollback`: byte-for-byte the same behaviour as
`commit` — require existence, delete the bookkeeping entry, issue no SQL. -/
def tx_rollback (txId : String) (st : TxState) : Except String (TxState × List String) :=
  match st.lookup txId with
  | none => .error ("Transaction " ++ txId ++ " not found")
  | some _ => .ok (st.eraseP (fun e => e.1 == txId), [])

/-! ## Theorems -/

theorem ws_cases {c : Char} (h : c.isWhitespace = true) :
    c = ' ' ∨ c = '\t' ∨ c = '\r' ∨ c = '\n' := by
  simpa [Char.isWhitespace, or_assoc] using h

theorem ws_not_word {c : Char} (h : c.isWhitespace = true) : isWordChar c = false := by
  rcases ws_cases h with h | h | h | h <;> subst h <;> decide

theorem toLower_ws {c : Char} (h : c.isWhitespace = true) : c.toLower = c := by
  rcases ws_cases h with h | h | h | h <;> subst h <;> decide

theorem kwMatch_rstrip (u : List Char) : ∀ kw : List Char, kwOk kw = true →
    kwMatch kw (rstripCh u) = kwMatch kw u := by
  induction u with
  | nil => intro kw _; rfl
  | cons c cs ih =>
    intro kw hkw
    rw [show rstripCh (c :: cs) = match rstripCh cs with
        | [] => if c.isWhitespace then [] else [c]
        | d :: ds => c :: d :: ds from rfl]
    cases hr : rstripCh cs with
    | nil =>
      by_cases hws : c.isWhitespace
      · simp only [hws, if_true]
        cases kw with
        | nil => simp [kwMatch, ws_not_word hws]
        | cons k ks =>
          have hk : kwOkC k = true := by
            have := List.all_eq_true.mp hkw k (List.mem_cons_self k ks)
            exact this
          have hne : (k.toLower == c.toLower) = false := by
            rw [beq_eq_false_iff_ne]
            intro he
            rw [toLower_ws hws] at he
            have : k.toLower.isWhitespace = true := by rw [he]; exact hws
            simp [kwOkC] at hk
            rw [this] at hk
            simp at hk
          simp [kwMatch, hne]
      · simp only [hws, if_false, Bool.false_eq_true]
        cases kw with
        | nil => rfl
        | cons k ks =>
          have hks : kwOk ks = true := by
            simp only [kwOk, List.all_cons, Bool.and_eq_true] at hkw ⊢
            exact hkw.2
          have := ih ks hks
          rw [hr] at this
          simp [kwMatch, this]
    | cons d ds =>
      cases kw with
      | nil => rfl
      | cons k ks =>
        have hks : kwOk ks = true := by
          simp only [kwOk, List.all_cons, Bool.and_eq_true] at hkw ⊢
          exact hkw.2
        have := ih ks hks
        rw [hr] at this
        simp [kwMatch, this]

theorem rstrip_nil_dropWhile : ∀ {l : List Char}, rstripCh l = [] →
    l.dropWhile Char.isWhitespace = [] := by
  intro l
  induction l with
  | nil => intro _; rfl
  | cons c cs ih =>
    intro h
    rw [show rstripCh (c :: cs) = match rstripCh cs with
        | [] => if c.isWhitespace then [] else [c]
        | d :: ds => c :: d :: ds from rfl] at h
    cases hr : rstripCh cs with
    | nil =>
      rw [hr] at h
      by_cases hws : c.isWhitespace
      · simp [List.dropWhile_cons, hws, ih hr]
      · simp [hws] at h
    | cons d ds => rw [hr] at h; simp at h

theorem dropWhile_rstripCh (l : List Char) :
    (rstripCh l).dropWhile Char.isWhitespace = rstripCh (l.dropWhile Char.isWhitespace) := by
  induction l with
  | nil => rfl
  | cons c cs ih =>
    have hstep : rstripCh (c :: cs) = match rstripCh cs with
        | [] => if c.isWhitespace then [] else [c]
        | d :: ds => c :: d :: ds := rfl
    by_cases hws : c.isWhitespace
    · have hR : List.dropWhile Char.isWhitespace (c :: cs)
          = List.dropWhile Char.isWhitespace cs := by
        simp [List.dropWhile_cons, hws]
      rw [hR]
      cases hr : rstripCh cs with
      | nil =>
        have hL : rstripCh (c :: cs) = [] := by rw [hstep, hr]; simp [hws]
        have h2 : cs.dropWhile Char.isWhitespace = [] := rstrip_nil_dropWhile hr
        rw [hL, h2]
        rfl
      | cons d ds =>
        have hL : rstripCh (c :: cs) = c :: d :: ds := by rw [hstep, hr]
        rw [hL, ← ih, hr]
        simp [List.dropWhile_cons, hws]
    · have hR : List.dropWhile Char.isWhitespace (c :: cs) = c :: cs := by
        simp [List.dropWhile_cons, hws]
      rw [hR]
      cases hr : rstripCh cs with
      | nil =>
        have hL : rstripCh (c :: cs) = [c] := by rw [hstep, hr]; simp [hws]
        rw [hL]
        simp [List.dropWhile_cons, hws]
      | cons d ds =>
        have hL : rstripCh (c :: cs) = c :: d :: ds := by rw [hstep, hr]
        rw [hL]
        simp [List.dropWhile_cons, hws]

theorem dropWhile_ws_idem (l : List Char) :
    (l.dropWhile Char.isWhitespace).dropWhile Char.isWhitespace
      = l.dropWhile Char.isWhitespace := by
  induction l with
  | nil => rfl
  | cons c cs ih =>
    by_cases hws : c.isWhitespace
    · simp [List.dropWhile_cons, hws, ih]
    · simp [List.dropWhile_cons, hws]

theorem classifyWith_congr (test1 test2 : List Char → List Char → Bool)
    (t1 t2 : List Char) :
    ∀ table : List (List Char × QueryType),
      (∀ p ∈ table, test1 p.1 t1 = test2 p.1 t2) →
      classifyWith test1 t1 table = classifyWith test2 t2 table := by
  intro table
  induction table with
  | nil => intro _; rfl
  | cons p rest ih =>
    intro h
    obtain ⟨kw, qt⟩ := p
    have h1 := h (kw, qt) (List.mem_cons_self _ _)
    simp only [classifyWith]
    rw [h1]
    by_cases hm : test2 kw t2 = true
    · simp [hm]
    · simp only [Bool.not_eq_true] at hm
      simp [hm, ih (fun p hp => h p (List.mem_cons_of_mem _ hp))]

/-- C6: `determine_type` classifies by the leading keyword of the SQL,
case-insensitively and ignoring leading whitespace, against the ordered
16-entry table, first match winning, and returns `UNKNOWN` when nothing
matches — i.e. it agrees with the classifier transcribed from the spec's
words, and satisfies the spec's three examples. -/
theorem determine_type_spec :
    (∀ sql : String, determine_type sql = specDetermineType sql) ∧
    determine_type "  select * from t" = QueryType.SELECT ∧
    determine_type "INSERT INTO t VALUES (1)" = QueryType.INSERT ∧
    determine_type "foo" = QueryType.UNKNOWN := by
  refine ⟨?_, by decide, by decide, by decide⟩
  intro sql
  unfold determine_type specDetermineType pyStrip
  apply classifyWith_congr
  intro p hp
  have hok : kwOk p.1 = true := by
    have hall : queryTable.all (fun q => kwOk q.1) = true := by decide
    exact List.all_eq_true.mp hall p hp
  rw [regexKwTest, dropWhile_rstripCh, dropWhile_ws_idem, kwMatch_rstrip _ _ hok]

/-- C7 counterexample: `"--x--"` contains two occurrences of the comment
token `--` (at positions 0 and 3) yet `validate_security` emits a single
warning, so it does not return one warning per occurrence. -/
theorem validate_security_per_occurrence_cex :
    patCount (DangerPat.lit "--") "--x--".data = 2 ∧
    (validate_security "--x--" false).length = 1 ∧
    (validate_security "--x--" false).length ≠ patCount (DangerPat.lit "--") "--x--".data :=
  ⟨by decide, by decide, by decide⟩

/-- C7 (amended): `validate_security sql false` returns one warning per
dangerous pattern that occurs somewhere in `sql` (regardless of how many
times it occurs), plus one warning when the query exceeds 100000
characters; it is empty exactly when no pattern occurs and the query is
short enough.  The spec's two examples hold. -/
theorem validate_security_spec :
    (∀ sql : String,
      (validate_security sql false).length
        = (dangerousPatterns.filter (fun pr => patSearch pr.1 sql.data)).length
          + (if sql.length > 100000 then 1 else 0)) ∧
    (∀ sql : String,
      validate_security sql false = [] ↔
        ((∀ pr ∈ dangerousPatterns, patSearch pr.1 sql.data = false) ∧
          sql.length ≤ 100000)) ∧
    validate_security "SELECT 1; DROP TABLE t" false ≠ [] ∧
    validate_security "SELECT 1" false = [] := by
  refine ⟨?_, ?_, by decide, by decide⟩
  · intro sql
    unfold validate_security
    by_cases h : sql.length > 100000
    · simp [h]
    · simp [h]
  · intro sql
    unfold validate_security
    by_cases h : sql.length > 100000
    · simp only [h, if_true, if_false]
      constructor
      · intro habs
        exact absurd habs (by simp)
      · intro ⟨_, hlen⟩
        omega
    · simp only [h, if_true, if_false, Bool.false_eq_true]
      rw [List.map_eq_nil_iff, List.filter_eq_nil_iff]
      constructor
      · intro hnone
        refine ⟨?_, by omega⟩
        intro pr hpr
        have := hnone pr hpr
        simpa using this
      · intro ⟨hnone, _⟩
        intro pr hpr
        simp [hnone pr hpr]

/-- C7 witness: the amended theorem applied to the concrete query
`SELECT 1`, discharging the emptiness characterization's hypotheses. -/
theorem validate_security_spec_witness :
    validate_security "SELECT 1" false = [] :=
  (validate_security_spec.2.1 "SELECT 1").mpr ⟨by decide, by decide⟩

/-! ### Streaming-loop lemmas -/

theorem limitHit_iff (n : Int) (hn : 1 ≤ n) (count : Nat) :
    limitHit (some n) count = true ↔ n.toNat ≤ count := by
  simp only [limitHit, Bool.and_eq_true, bne_iff_ne, ne_eq, decide_eq_true_eq]
  omega

theorem addBatch_spec (n : Int) (hn : 1 ≤ n) :
    ∀ (batch acc : List Row) (count : Nat), acc.length = count → count ≤ n.toNat →
      (addBatch (some n) batch acc count).2 = min (count + batch.length) n.toNat ∧
      (addBatch (some n) batch acc count).1.length = (addBatch (some n) batch acc count).2 := by
  intro batch
  induction batch with
  | nil =>
    intro acc count hlen hle
    simp only [addBatch, List.length_nil]
    omega
  | cons r rest ih =>
    intro acc count hlen hle
    rw [show addBatch (some n) (r :: rest) acc count
        = if limitHit (some n) count then (acc, count)
          else addBatch (some n) rest (acc ++ [r]) (count + 1) from rfl]
    by_cases hhit : limitHit (some n) count = true
    · have h2 : n.toNat ≤ count := (limitHit_iff n hn count).mp hhit
      simp only [hhit, if_true, List.length_cons]
      constructor
      · omega
      · exact hlen
    · have h2 : count < n.toNat := by
        have := mt (limitHit_iff n hn count).mpr hhit
        omega
      simp only [hhit, if_false, Bool.false_eq_true, List.length_cons]
      have := ih (acc ++ [r]) (count + 1) (by simp [hlen]) (by omega)
      refine ⟨?_, this.2⟩
      rw [this.1]
      omega

theorem selectLoopF_spec (fs : Nat) (hfs : 0 < fs) (n : Int) (hn : 1 ≤ n)
    (cancelAt : Nat → Bool) (hc : ∀ j, cancelAt j = false) :
    ∀ (fuel : Nat) (rem : List Row) (k : Nat) (acc : List Row) (count : Nat),
      rem.length < fuel → acc.length = count → count < n.toNat →
      ∃ rows, selectLoopF fs (some n) cancelAt fuel k rem acc count
          = .ok (rows, min (count + rem.length) n.toNat) ∧
        rows.length = min (count + rem.length) n.toNat := by
  intro fuel
  induction fuel with
  | zero => intro rem k acc count hfuel; omega
  | succ fuel ih =>
    intro rem k acc count hfuel hlen hlt
    rw [show selectLoopF fs (some n) cancelAt (fuel + 1) k rem acc count
        = if cancelAt k then .error ()
          else
            let batch := rem.take fs
            if batch.isEmpty then .ok (acc, count)
            else
              let p := addBatch (some n) batch acc count
              if limitHit (some n) p.2 then .ok (p.1, p.2)
              else selectLoopF fs (some n) cancelAt fuel (k + 1) (rem.drop fs) p.1 p.2
        from rfl]
    rw [hc k]
    simp only [if_false, Bool.false_eq_true]
    by_cases hb : (rem.take fs).isEmpty
    · have hrem : rem = [] := by
        cases rem with
        | nil => rfl
        | cons r rs =>
          exfalso
          cases fs with
          | zero => omega
          | succ fs' => simp [List.take] at hb
      subst hrem
      simp only [hb, if_true, List.length_nil, Nat.add_zero]
      refine ⟨acc, ?_, ?_⟩
      · have : min count n.toNat = count := by omega
        rw [this]
      · have : min count n.toNat = count := by omega
        rw [this, hlen]
    · simp only [hb, if_false, Bool.false_eq_true]
      have hspec := addBatch_spec n hn (rem.take fs) acc count hlen (by omega)
      have htake : (rem.take fs).length = min fs rem.length := by
        simp [List.length_take]
      by_cases hhit : limitHit (some n) (addBatch (some n) (rem.take fs) acc count).2 = true
      · have h2 : n.toNat ≤ (addBatch (some n) (rem.take fs) acc count).2 :=
          (limitHit_iff n hn _).mp hhit
      -- the batch already reached the limit: the loop stops here
        simp only [hhit, if_true]
        refine ⟨(addBatch (some n) (rem.take fs) acc count).1, ?_, ?_⟩
        · have : (addBatch (some n) (rem.take fs) acc count).2
              = min (count + rem.length) n.toNat := by
            rw [hspec.1] at h2 ⊢
            omega
          rw [this]
        · have : (addBatch (some n) (rem.take fs) acc count).2
              = min (count + rem.length) n.toNat := by
            rw [hspec.1] at h2 ⊢
            omega
          rw [← this, hspec.2]
      · have h2 : (addBatch (some n) (rem.take fs) acc count).2 < n.toNat := by
          have := mt (limitHit_iff n hn _).mpr hhit
          omega
        simp only [hhit, if_false, Bool.false_eq_true]
        have hremne : rem ≠ [] := by
          intro habs
          subst habs
          simp at hb
        have hfuel2 : (rem.drop fs).length < fuel := by
          have h3 : 0 < rem.length := List.length_pos.mpr hremne
          simp only [List.length_drop]
          omega
        obtain ⟨rows, heq, hrows⟩ := ih (rem.drop fs) (k + 1)
          (addBatch (some n) (rem.take fs) acc count).1
          (addBatch (some n) (rem.take fs) acc count).2
          hfuel2 hspec.2 h2
        refine ⟨rows, ?_, ?_⟩
        · rw [heq]
          have : (addBatch (some n) (rem.take fs) acc count).2 + (rem.drop fs).length
              = count + min fs rem.length + (rem.length - fs) := by
            rw [hspec.1, htake]
            simp only [List.length_drop]
            omega
          rw [show min ((addBatch (some n) (rem.take fs) acc count).2
                + (rem.drop fs).length) n.toNat
              = min (count + rem.length) n.toNat by
            rw [this]
            omega]
        · rw [hrows]
          rw [hspec.1, htake]
          simp only [List.length_drop]
          have h4 := hspec.1
          rw [htake] at h4
          omega

/-! ### Executor path lemmas -/

theorem executeCore_select_ok (req : QueryRequest) (env : ExecEnv)
    (hqt : determine_type req.sql = QueryType.SELECT)
    (hacq : env.acq = AcqOutcome.ok) (hca : env.cancelAtAcquire = false)
    (hbe : env.beginError = none) (hee : env.execError = none)
    (rows : List Row) (cnt : Nat)
    (hloop : selectLoop req.fetchSize req.rowLimit env.cancelAtBatch env.resultRows
      = .ok (rows, cnt)) :
    (executeCore req env).result.status = ExecStatus.success ∧
    (executeCore req env).result.rows = rows ∧
    (executeCore req env).result.rowCount = cnt := by
  have hro : (req.readOnly && !(is_read_only QueryType.SELECT)) = false := by
    simp [is_read_only]
  simp only [executeCore, tryBody, hqt, hro, Bool.false_eq_true, if_false,
             hacq, hca, hbe, hee, hloop, if_true, reduceIte]
  cases hbs : (match isoValue req.isolationLevel with
      | some v => if isoTruthy req.isolationLevel then ["BEGIN " ++ v] else []
      | none => []) with
  | nil => simp [hbs]
  | cons b bs => simp [hbs]

theorem executeCore_cancelled (req : QueryRequest) (env : ExecEnv)
    (hqt : determine_type req.sql = QueryType.SELECT)
    (hacq : env.acq = AcqOutcome.ok) (hca : env.cancelAtAcquire = false)
    (hbe : env.beginError = none) (hee : env.execError = none)
    (hloop : selectLoop req.fetchSize req.rowLimit env.cancelAtBatch env.resultRows
      = .error ()) :
    (executeCore req env).result = handlerResult req .cancelled "Query was cancelled" := by
  have hro : (req.readOnly && !(is_read_only QueryType.SELECT)) = false := by
    simp [is_read_only]
  simp only [executeCore, tryBody, hqt, hro, Bool.false_eq_true, if_false,
             hacq, hca, hbe, hee, hloop, if_true, reduceIte]

/-- A cancellation observed at the second batch-boundary check (after one
full fetched batch) aborts the fetch loop with `QueryCancelledException`. -/
theorem selectLoop_cancel_second (fs : Nat) (hfs : 0 < fs) (rows : List Row)
    (hlen : fs < rows.length) (cancelAt : Nat → Bool)
    (h0 : cancelAt 0 = false) (h1 : cancelAt 1 = true) :
    selectLoop fs none cancelAt rows = .error () := by
  unfold selectLoop
  rw [show selectLoopF fs none cancelAt (rows.length + 1) 0 rows [] 0
      = if cancelAt 0 then .error ()
        else
          let batch := rows.take fs
          if batch.isEmpty then .ok ([], 0)
          else
            let p := addBatch none batch [] 0
            if limitHit none p.2 then .ok (p.1, p.2)
            else selectLoopF fs none cancelAt rows.length 1 (rows.drop fs) p.1 p.2
      from rfl]
  rw [h0]
  have hne : (rows.take fs).isEmpty = false := by
    cases hrows : rows with
    | nil => subst hrows; simp at hlen
    | cons r rs =>
      cases fs with
      | zero => omega
      | succ m => simp [List.take]
  have hnolim : ∀ x : Nat, limitHit none x = false := fun _ => rfl
  simp only [if_false, Bool.false_eq_true, hne, hnolim]
  have hm : rows.length = (rows.length - 1) + 1 := by omega
  rw [hm]
  rw [show selectLoopF fs none cancelAt ((rows.length - 1) + 1) 1 (rows.drop fs)
        (addBatch none (rows.take fs) [] 0).1 (addBatch none (rows.take fs) [] 0).2
      = if cancelAt 1 then .error ()
        else
          let batch := (rows.drop fs).take fs
          if batch.isEmpty then
            .ok ((addBatch none (rows.take fs) [] 0).1, (addBatch none (rows.take fs) [] 0).2)
          else
            let p := addBatch none batch (addBatch none (rows.take fs) [] 0).1
              (addBatch none (rows.take fs) [] 0).2
            if limitHit none p.2 then .ok (p.1, p.2)
            else selectLoopF fs none cancelAt (rows.length - 1) 2 ((rows.drop fs).drop fs) p.1 p.2
      from rfl]
  simp [h1]

/-- C4 counterexample: with `row_limit = 0` (a legal non-negative value)
over a one-row result set, the code returns all rows: `row_count = 1`,
whereas the claim demands `min(0, 1) = 0` — Python treats `row_limit = 0`
as falsy and disables the limit. -/
theorem execute_row_limit_zero_cex :
    (executeCore reqLimitZero envOneRow).result.status = ExecStatus.success ∧
    (executeCore reqLimitZero envOneRow).result.rowCount = 1 ∧
    (executeCore reqLimitZero envOneRow).result.rows.length = 1 ∧
    (executeCore reqLimitZero envOneRow).result.rowCount
      ≠ min (Int.toNat 0) envOneRow.resultRows.length :=
  ⟨by decide, by decide, by decide, by decide⟩

/-- C4 (amended): for a *positive* row limit `n` and an `m`-row result
set, an uncancelled SELECT succeeds with `row_count = min n m` and exactly
`row_count` collected rows; a row limit of `0` is falsy in Python and
disables limiting (see the counterexample). -/
theorem execute_row_limit (req : QueryRequest) (env : ExecEnv) (n : Int)
    (hqt : determine_type req.sql = QueryType.SELECT)
    (hacq : env.acq = AcqOutcome.ok) (hca : env.cancelAtAcquire = false)
    (hbe : env.beginError = none) (hee : env.execError = none)
    (hrl : req.rowLimit = some n) (hn : 1 ≤ n) (hfs : 0 < req.fetchSize)
    (hnc : ∀ j, env.cancelAtBatch j = false) :
    (executeCore req env).result.status = ExecStatus.success ∧
    (executeCore req env).result.rowCount = min n.toNat env.resultRows.length ∧
    (executeCore req env).result.rows.length = (executeCore req env).result.rowCount := by
  obtain ⟨rows, heq, hrows⟩ := selectLoopF_spec req.fetchSize hfs n hn env.cancelAtBatch hnc
    (env.resultRows.length + 1) env.resultRows 0 [] 0 (by omega) rfl (by omega)
  have hloop : selectLoop req.fetchSize req.rowLimit env.cancelAtBatch env.resultRows
      = .ok (rows, min n.toNat env.resultRows.length) := by
    rw [hrl]
    unfold selectLoop
    rw [heq]
    have : min (0 + env.resultRows.length) n.toNat = min n.toNat env.resultRows.length := by
      omega
    rw [this]
  obtain ⟨h1, h2, h3⟩ := executeCore_select_ok req env hqt hacq hca hbe hee rows _ hloop
  refine ⟨h1, h3, ?_⟩
  rw [h2, h3, hrows]
  omega

/-- C4 witness: the amended theorem at `row_limit = 5` over seven rows. -/
theorem execute_row_limit_witness :
    (executeCore reqLimitFive envSevenRows).result.status = ExecStatus.success ∧
    (executeCore reqLimitFive envSevenRows).result.rowCount
      = min (Int.toNat 5) envSevenRows.resultRows.length ∧
    (executeCore reqLimitFive envSevenRows).result.rows.length
      = (executeCore reqLimitFive envSevenRows).result.rowCount :=
  execute_row_limit reqLimitFive envSevenRows 5 (by decide) rfl rfl rfl rfl rfl
    (by decide) (by decide) (fun _ => rfl)

/-- C5 counterexample: a SELECT over four rows with `fetch_size = 2`,
cancelled at the check after the first batch, returns CANCELLED with an
*empty* rows list — the two partially fetched rows are discarded, so the
result does not keep them as the claim states. -/
theorem execute_cancel_partial_rows_cex :
    (executeCore reqFetchTwo envCancelSecond).result.status = ExecStatus.cancelled ∧
    (executeCore reqFetchTwo envCancelSecond).result.rows = [] ∧
    envCancelSecond.resultRows.length = 4 :=
  ⟨by decide, by decide, by decide⟩

/-- C5 (amended): cancellation of a SELECT is observed at batch
boundaries, and a SELECT cancelled at the check following the first fetch
batch yields status CANCELLED with error "Query was cancelled" and an
empty rows list and `row_count = 0`: the partially fetched rows are
discarded by the exception handler, not kept. -/
theorem execute_cancel_discards_rows (req : QueryRequest) (env : ExecEnv)
    (hqt : determine_type req.sql = QueryType.SELECT)
    (hacq : env.acq = AcqOutcome.ok) (hca : env.cancelAtAcquire = false)
    (hbe : env.beginError = none) (hee : env.execError = none)
    (hrl : req.rowLimit = none) (hfs : 0 < req.fetchSize)
    (hm : req.fetchSize < env.resultRows.length)
    (h0 : env.cancelAtBatch 0 = false) (h1 : env.cancelAtBatch 1 = true) :
    (executeCore req env).result.status = ExecStatus.cancelled ∧
    (executeCore req env).result.rows = [] ∧
    (executeCore req env).result.rowCount = 0 ∧
    (executeCore req env).result.error = some "Query was cancelled" := by
  have hloop : selectLoop req.fetchSize req.rowLimit env.cancelAtBatch env.resultRows
      = .error () := by
    rw [hrl]
    exact selectLoop_cancel_second req.fetchSize hfs env.resultRows hm env.cancelAtBatch h0 h1
  have hres := executeCore_cancelled req env hqt hacq hca hbe hee hloop
  rw [hres]
  exact ⟨rfl, rfl, rfl, rfl⟩

/-- C5 witness: the amended theorem at the concrete cancelled SELECT. -/
theorem execute_cancel_discards_rows_witness :
    (executeCore reqFetchTwo envCancelSecond).result.status = ExecStatus.cancelled ∧
    (executeCore reqFetchTwo envCancelSecond).result.rows = [] ∧
    (executeCore reqFetchTwo envCancelSecond).result.rowCount = 0 ∧
    (executeCore reqFetchTwo envCancelSecond).result.error = some "Query was cancelled" :=
  execute_cancel_discards_rows reqFetchTwo envCancelSecond (by decide) rfl rfl rfl rfl rfl
    (by decide) (by decide) rfl rfl

/-- C3 counterexample: the rejection of `DELETE FROM t` under
`read_only = true` carries the message
"Write operations not allowed in read-only mode", which is not the string
"write operation not allowed in read-only mode" stated by the claim. -/
theorem execute_read_only_message_cex :
    (executeCore reqReadOnlyDelete envOkEmpty).result.error
      = some "Write operations not allowed in read-only mode" ∧
    (executeCore reqReadOnlyDelete envOkEmpty).result.error
      ≠ some "write operation not allowed in read-only mode" :=
  ⟨by decide, by decide⟩

/-- C3 (amended): a request with `read_only = true` whose SQL classifies
as a non-read-only type is rejected immediately with status ERROR,
`affected_rows = 0`, no rows, error
"Write operations not allowed in read-only mode" (this exact casing), and
the pool is never touched. -/
theorem execute_read_only_reject (req : QueryRequest) (env : ExecEnv)
    (hro : req.readOnly = true)
    (hqt : is_read_only (determine_type req.sql) = false) :
    (executeCore req env).result.status = ExecStatus.error ∧
    (executeCore req env).result.affectedRows = 0 ∧
    (executeCore req env).result.rows = [] ∧
    (executeCore req env).result.error
      = some "Write operations not allowed in read-only mode" ∧
    (executeCore req env).acquireAttempted = false := by
  simp [executeCore, hro, hqt]

/-- C3 witness: the amended theorem at the concrete rejected DELETE. -/
theorem execute_read_only_reject_witness :
    (executeCore reqReadOnlyDelete envOkEmpty).result.status = ExecStatus.error ∧
    (executeCore reqReadOnlyDelete envOkEmpty).result.affectedRows = 0 ∧
    (executeCore reqReadOnlyDelete envOkEmpty).result.rows = [] ∧
    (executeCore reqReadOnlyDelete envOkEmpty).result.error
      = some "Write operations not allowed in read-only mode" ∧
    (executeCore reqReadOnlyDelete envOkEmpty).acquireAttempted = false :=
  execute_read_only_reject reqReadOnlyDelete envOkEmpty rfl (by decide)

/-- C10: `cancel` answers membership in the active-query registry;
`execute` registers the query id on entry and pops it in `finally` on
every exit path, so after `execute` returns the id is gone and a
subsequent `cancel` for it returns false — for every request, environment
and prior registry state. -/
theorem cancel_active_registry :
    ∀ (req : QueryRequest) (env : ExecEnv) (active : Finset String) (q : String),
      (cancelQuery active q = true ↔ q ∈ active) ∧
      (execute req env active).2 = active.erase req.queryId ∧
      cancelQuery (execute req env active).2 req.queryId = false := by
  intro req env active q
  refine ⟨?_, ?_, ?_⟩
  · unfold cancelQuery
    split <;> simp_all
  · unfold execute
    exact Finset.erase_insert_eq_erase active req.queryId
  · unfold execute cancelQuery
    simp [Finset.erase_insert_eq_erase, Finset.not_mem_erase]

/-- Every `(.ok result, issued)` outcome of the try-block body is a
success result without an error message; every other outcome is an
escaping exception. -/
theorem tryBody_cases (req : QueryRequest) (env : ExecEnv) (qt : QueryType)
    (w : List String) :
    (∃ res issued, tryBody req env qt w = (.ok res, issued) ∧
      res.status = ExecStatus.success ∧ res.error = none) ∨
    (∃ e issued, tryBody req env qt w = (.error e, issued)) := by
  unfold tryBody
  cases hacq : env.acq with
  | timeoutErr => exact Or.inr ⟨_, _, rfl⟩
  | poolClosed => exact Or.inr ⟨_, _, rfl⟩
  | deadlineElapsed => exact Or.inr ⟨_, _, rfl⟩
  | ok =>
    by_cases hca : env.cancelAtAcquire = true
    · simp only [hca, if_true]
      exact Or.inr ⟨_, _, rfl⟩
    · simp only [Bool.not_eq_true] at hca
      simp only [hca, Bool.false_eq_true, if_false]
      cases hbs : (match isoValue req.isolationLevel with
          | some v => if isoTruthy req.isolationLevel then ["BEGIN " ++ v] else []
          | none => []) with
      | cons b bs =>
        cases hbe : env.beginError with
        | some m => exact Or.inr ⟨_, _, rfl⟩
        | none =>
          cases hee : env.execError with
          | some m => exact Or.inr ⟨_, _, rfl⟩
          | none =>
            by_cases hq : qt = QueryType.SELECT
            · simp only [hq, if_true, reduceIte]
              cases hsl : selectLoop req.fetchSize req.rowLimit env.cancelAtBatch
                  env.resultRows with
              | error e => exact Or.inr ⟨_, _, rfl⟩
              | ok p => exact Or.inl ⟨_, _, rfl, rfl, rfl⟩
            · simp only [hq, if_false, reduceIte]
              cases hce : env.commitError with
              | some m => exact Or.inr ⟨_, _, rfl⟩
              | none => exact Or.inl ⟨_, _, rfl, rfl, rfl⟩
      | nil =>
        cases hbe : env.beginError with
        | some m =>
          cases hee : env.execError with
          | some m2 => exact Or.inr ⟨_, _, rfl⟩
          | none =>
            by_cases hq : qt = QueryType.SELECT
            · simp only [hq, if_true, reduceIte]
              cases hsl : selectLoop req.fetchSize req.rowLimit env.cancelAtBatch
                  env.resultRows with
              | error e => exact Or.inr ⟨_, _, rfl⟩
              | ok p => exact Or.inl ⟨_, _, rfl, rfl, rfl⟩
            · simp only [hq, if_false, reduceIte]
              cases hce : env.commitError with
              | some m2 => exact Or.inr ⟨_, _, rfl⟩
              | none => exact Or.inl ⟨_, _, rfl, rfl, rfl⟩
        | none =>
          cases hee : env.execError with
          | some m => exact Or.inr ⟨_, _, rfl⟩
          | none =>
            by_cases hq : qt = QueryType.SELECT
            · simp only [hq, if_true, reduceIte]
              cases hsl : selectLoop req.fetchSize req.rowLimit env.cancelAtBatch
                  env.resultRows with
              | error e => exact Or.inr ⟨_, _, rfl⟩
              | ok p => exact Or.inl ⟨_, _, rfl, rfl, rfl⟩
            · simp only [hq, if_false, reduceIte]
              cases hce : env.commitError with
              | some m => exact Or.inr ⟨_, _, rfl⟩
              | none => exact Or.inl ⟨_, _, rfl, rfl, rfl⟩

/-- C2 counterexample: when acquisition fails because the pool is closed,
`ConnectionPoolExhausted` is a plain `Exception` caught by the generic
handler, so `execute` returns status ERROR (message "Pool is closed"),
not the TIMEOUT status the claim requires for a closed pool. -/
theorem execute_pool_closed_cex :
    (executeCore reqSelectOne envPoolClosed).result.status = ExecStatus.error ∧
    (executeCore reqSelectOne envPoolClosed).result.status ≠ ExecStatus.timeout ∧
    (executeCore reqSelectOne envPoolClosed).result.error = some "Pool is closed" :=
  ⟨by decide, by decide, by decide⟩

/-- C2 (amended): `execute` never lets an exception reach the caller —
every non-success outcome is a `QueryResult` carrying an error message.
An acquisition that fails with `asyncio.TimeoutError` from the awaited
pool wait yields status TIMEOUT; but an acquisition that fails with
`ConnectionPoolExhausted` (pool closed, or deadline found already elapsed
on recheck) is caught by the generic handler and yields status ERROR with
the exception's message. -/
theorem execute_error_taxonomy (req : QueryRequest) (env : ExecEnv) :
    ((executeCore req env).result.status ≠ ExecStatus.success →
      ((executeCore req env).result.error).isSome = true) ∧
    (env.acq = AcqOutcome.timeoutErr →
      (req.readOnly && !(is_read_only (determine_type req.sql))) = false →
      (executeCore req env).result.status = ExecStatus.timeout ∧
      (executeCore req env).result.error = some "Query timed out") ∧
    (env.acq = AcqOutcome.poolClosed →
      (req.readOnly && !(is_read_only (determine_type req.sql))) = false →
      (executeCore req env).result.status = ExecStatus.error ∧
      (executeCore req env).result.error = some "Pool is closed") ∧
    (env.acq = AcqOutcome.deadlineElapsed →
      (req.readOnly && !(is_read_only (determine_type req.sql))) = false →
      (executeCore req env).result.status = ExecStatus.error ∧
      (executeCore req env).result.error = some "Timeout waiting for connection") := by
  refine ⟨?_, ?_, ?_, ?_⟩
  · intro hne
    unfold executeCore
    unfold executeCore at hne
    by_cases h1 : (req.readOnly && !(is_read_only (determine_type req.sql))) = true
    · simp [h1]
    · simp only [Bool.not_eq_true] at h1
      simp only [h1, Bool.false_eq_true, if_false] at hne ⊢
      rcases tryBody_cases req env (determine_type req.sql)
          (validate_security req.sql false) with
        ⟨res, issued, heq, hst, _⟩ | ⟨e, issued, heq⟩
      · rw [heq] at hne
        simp at hne
        exact absurd hst hne
      · rw [heq]
        cases e <;> simp [handlerResult]
  · intro hacq h1
    simp [executeCore, tryBody, h1, hacq, handlerResult]
  · intro hacq h1
    simp [executeCore, tryBody, h1, hacq, handlerResult]
  · intro hacq h1
    simp [executeCore, tryBody, h1, hacq, handlerResult]

/-- C2 witness: the amended theorem applied at concrete environments
where the pool wait times out and where the pool is closed. -/
theorem execute_error_taxonomy_witness :
    ((executeCore reqSelectOne envTimeoutWait).result.status = ExecStatus.timeout ∧
      (executeCore reqSelectOne envTimeoutWait).result.error = some "Query timed out") ∧
    ((executeCore reqSelectOne envPoolClosed).result.status = ExecStatus.error ∧
      (executeCore reqSelectOne envPoolClosed).result.error = some "Pool is closed") :=
  ⟨(execute_error_taxonomy reqSelectOne envTimeoutWait).2.1 rfl (by decide),
   (execute_error_taxonomy reqSelectOne envPoolClosed).2.2.1 rfl (by decide)⟩

/-- After the read-only check passes, what `execute` issues on the
connection is exactly what the try-block body issues. -/
theorem executeCore_issued (req : QueryRequest) (env : ExecEnv)
    (h1 : (req.readOnly && !(is_read_only (determine_type req.sql))) = false) :
    (executeCore req env).issued
      = (tryBody req env (determine_type req.sql) (validate_security req.sql false)).2 := by
  unfold executeCore
  simp only [h1, Bool.false_eq_true, if_false]
  cases hp : (tryBody req env (determine_type req.sql) (validate_security req.sql false)).1 with
  | ok res => rfl
  | error e => cases e <;> rfl

/-- For any request whose isolation level is the default `DEFERRED`, a
successful acquisition without an early cancellation or a `BEGIN` failure
issues exactly `BEGIN DEFERRED` followed by the request's SQL. -/
theorem tryBody_issued_deferred (req : QueryRequest) (env : ExecEnv) (qt : QueryType)
    (w : List String)
    (hiso : req.isolationLevel = IsolationLevel.DEFERRED)
    (hacq : env.acq = AcqOutcome.ok) (hca : env.cancelAtAcquire = false)
    (hbe : env.beginError = none) :
    (tryBody req env qt w).2 = ["BEGIN DEFERRED", req.sql] := by
  unfold tryBody
  rw [hacq]
  have hde : isoTruthy IsolationLevel.DEFERRED = true := by decide
  simp only [hca, Bool.false_eq_true, if_false, hbe, hiso, isoValue, hde, if_true]
  cases hee : env.execError with
  | some m => simp [hde]
  | none =>
    by_cases hq : qt = QueryType.SELECT
    · simp only [hq, if_true, reduceIte]
      cases hsl : selectLoop req.fetchSize req.rowLimit env.cancelAtBatch env.resultRows <;>
        simp [hde]
    · simp only [hq, if_false, reduceIte]
      cases hce : env.commitError <;> simp [hde]

/-- C9: a `QueryRequest` constructed without specifying
`isolation_level` — whatever its other fields — defaults to DEFERRED
(not NONE, whose `value` is `None`); and every request with that default
isolation level that passes the read-only check has, on a successful
acquisition, an explicit `BEGIN DEFERRED` issued on the connection before
the statement itself — for SELECTs as much as for writes. -/
theorem default_isolation_begin :
    (∀ (sql : String) (params : List Int) (queryId : String) (timeout : Option Nat)
        (readOnly : Bool) (rowLimit : Option Int) (fetchSize : Nat)
        (metadata : List (String × String)),
      (mkRequestNoIso sql params queryId timeout readOnly rowLimit fetchSize
          metadata).isolationLevel = IsolationLevel.DEFERRED) ∧
    isoValue IsolationLevel.DEFERRED ≠ isoValue IsolationLevel.NONE ∧
    (∀ (req : QueryRequest) (env : ExecEnv) (active : Finset String),
      req.isolationLevel = IsolationLevel.DEFERRED →
      (req.readOnly && !(is_read_only (determine_type req.sql))) = false →
      env.acq = AcqOutcome.ok → env.cancelAtAcquire = false → env.beginError = none →
      (execute req env active).1.issued = ["BEGIN DEFERRED", req.sql]) := by
  refine ⟨fun _ _ _ _ _ _ _ _ => rfl, by decide, ?_⟩
  intro req env active hiso hpass hacq hca hbe
  show (executeCore req env).issued = ["BEGIN DEFERRED", req.sql]
  rw [executeCore_issued _ _ hpass]
  exact tryBody_issued_deferred req env (determine_type req.sql)
    (validate_security req.sql false) hiso hacq hca hbe

/-- C9 witness: the default at one concrete field assignment, and the
`BEGIN DEFERRED` emission for a request with non-default fields
(`read_only = True`, `fetch_size = 7`) whose SELECT passes the read-only
check non-vacuously. -/
theorem default_isolation_begin_witness :
    (mkRequestNoIso "DELETE FROM t" [3] "q-a" (some 2) true (some 9) 50
        [("k", "v")]).isolationLevel = IsolationLevel.DEFERRED ∧
    reqReadOnlySelect.readOnly = true ∧
    (execute reqReadOnlySelect envOkEmpty ∅).1.issued = ["BEGIN DEFERRED", "SELECT 1"] :=
  ⟨default_isolation_begin.1 "DELETE FROM t" [3] "q-a" (some 2) true (some 9) 50
      [("k", "v")],
   rfl,
   default_isolation_begin.2.2 reqReadOnlySelect envOkEmpty ∅ rfl (by decide) rfl rfl rfl⟩

/-! ## Pool invariant proofs -/

theorem poolInv_init (cfg : PoolConfig)
    (hmm : cfg.minConnections ≤ cfg.maxConnections) : PoolInv cfg (initPool cfg) := by
  refine ⟨by simp [initPool, List.nodup_range], ?_, ?_, ?_, ?_⟩
  · intro w _
    simp [initPool]
  · intro w hw
    simpa [initPool] using List.mem_range.mp hw
  · intro w hw
    simp [initPool] at hw
  · simp [initPool, hmm]

theorem poolInv_step (cfg : PoolConfig)
    (hmm : cfg.minConnections ≤ cfg.maxConnections)
    {s s' : PoolState} (hinv : PoolInv cfg s) (hstep : PoolStep cfg s s') :
    PoolInv cfg s' := by
  obtain ⟨hnd, hdisj, hib, hub, hcard⟩ := hinv
  cases hstep with
  | acquireIdle w rest hcl hp =>
    dsimp only [PoolInv]
    rw [hp] at hnd hdisj hib hcard
    refine ⟨hnd.of_cons, ?_, ?_, ?_, ?_⟩
    · intro x hx
      rw [Finset.mem_insert]
      rintro (hxw | hxu)
      · subst hxw
        exact (List.nodup_cons.mp hnd).1 hx
      · exact hdisj x (List.mem_cons_of_mem _ hx) hxu
    · intro x hx
      exact hib x (List.mem_cons_of_mem _ hx)
    · intro x hx
      rcases Finset.mem_insert.mp hx with hxw | hxu
      · subst hxw
        exact hib x (List.mem_cons_self _ _)
      · exact hub x hxu
    · have hwnotin : w ∉ s.inUse := hdisj w (List.mem_cons_self _ _)
      rw [Finset.card_insert_of_not_mem hwnotin]
      simp only [List.length_cons] at hcard
      omega
  | acquireCreate hcl hempty hcap =>
    dsimp only [PoolInv]
    refine ⟨hnd, ?_, ?_, ?_, ?_⟩
    · intro x hx
      rw [hempty] at hx
      exact absurd hx (List.not_mem_nil x)
    · intro x hx
      exact Nat.lt_succ_of_lt (hib x hx)
    · intro x hx
      rcases Finset.mem_insert.mp hx with hxw | hxu
      · omega
      · exact Nat.lt_succ_of_lt (hub x hxu)
    · have hnotin : s.nextId ∉ s.inUse := fun h => absurd (hub _ h) (by omega)
      rw [Finset.card_insert_of_not_mem hnotin]
      rw [hempty]
      simpa using hcap
  | releaseKeep w hw =>
    dsimp only [PoolInv]
    have hwidle : w ∉ s.idle := fun h => absurd hw (hdisj w h)
    refine ⟨?_, ?_, ?_, ?_, ?_⟩
    · rw [List.nodup_append]
      exact ⟨hnd, List.nodup_singleton w, by
        intro x hx hxw
        rw [List.mem_singleton] at hxw
        subst hxw
        exact hwidle hx⟩
    · intro x hx
      rcases List.mem_append.mp hx with hxi | hxw
      · intro hmem
        exact hdisj x hxi (Finset.mem_of_mem_erase hmem)
      · rw [List.mem_singleton] at hxw
        subst hxw
        exact Finset.not_mem_erase x s.inUse
    · intro x hx
      rcases List.mem_append.mp hx with hxi | hxw
      · exact hib x hxi
      · rw [List.mem_singleton] at hxw
        subst hxw
        exact hub x hw
    · intro x hx
      exact hub x (Finset.mem_of_mem_erase hx)
    · rw [List.length_append, Finset.card_erase_of_mem hw]
      have hpos : 0 < s.inUse.card := Finset.card_pos.mpr ⟨w, hw⟩
      simp only [List.length_singleton]
      omega
  | releaseClose w hw hmin =>
    dsimp only [PoolInv]
    refine ⟨hnd, ?_, hib, ?_, ?_⟩
    · intro x hx hmem
      exact hdisj x hx (Finset.mem_of_mem_erase hmem)
    · intro x hx
      exact hub x (Finset.mem_of_mem_erase hx)
    · have := Finset.card_erase_le (a := w) (s := s.inUse)
      omega
  | releaseCloseReplace w hw hmin =>
    dsimp only [PoolInv]
    have hnidle : s.nextId ∉ s.idle := fun h => absurd (hib _ h) (by omega)
    refine ⟨?_, ?_, ?_, ?_, ?_⟩
    · rw [List.nodup_append]
      exact ⟨hnd, List.nodup_singleton _, by
        intro x hx hxn
        rw [List.mem_singleton] at hxn
        subst hxn
        exact hnidle hx⟩
    · intro x hx
      rcases List.mem_append.mp hx with hxi | hxn
      · intro hmem
        exact hdisj x hxi (Finset.mem_of_mem_erase hmem)
      · rw [List.mem_singleton] at hxn
        subst hxn
        intro hmem
        exact absurd (hub _ (Finset.mem_of_mem_erase hmem)) (by omega)
    · intro x hx
      rcases List.mem_append.mp hx with hxi | hxn
      · exact Nat.lt_succ_of_lt (hib x hxi)
      · rw [List.mem_singleton] at hxn
        omega
    · intro x hx
      exact Nat.lt_succ_of_lt (hub x (Finset.mem_of_mem_erase hx))
    · rw [List.length_append]
      simp only [List.length_singleton]
      omega
  | maintenanceSweep idle2 hsub =>
    dsimp only [PoolInv]
    refine ⟨hsub.nodup hnd, ?_, ?_, hub, ?_⟩
    · intro x hx
      exact hdisj x (hsub.subset hx)
    · intro x hx
      exact hib x (hsub.subset hx)
    · have := hsub.length_le
      omega
  | closePool =>
    dsimp only [PoolInv]
    refine ⟨List.nodup_nil, ?_, ?_, ?_, ?_⟩
    · intro x hx
      exact absurd hx (List.not_mem_nil x)
    · intro x hx
      exact absurd hx (List.not_mem_nil x)
    · intro x hx
      exact absurd hx (Finset.not_mem_empty x)
    · simp

/-- C1: for every acquire/release/maintenance/close sequence on a pool
with `min_connections ≤ max_connections`, at every observation point the
idle deque and the in-use set are disjoint and together hold at most
`max_connections` wrappers. -/
theorem pool_acquire_release_invariant (cfg : PoolConfig) (s : PoolState)
    (hmm : cfg.minConnections ≤ cfg.maxConnections)
    (hreach : PoolReachable cfg s) :
    (∀ w ∈ s.idle, w ∉ s.inUse) ∧
    s.idle.length + s.inUse.card ≤ cfg.maxConnections := by
  have hinv : PoolInv cfg s := by
    induction hreach with
    | init => exact poolInv_init cfg hmm
    | step hr hstep ih => exact poolInv_step cfg hmm ih hstep
  exact ⟨hinv.2.1, hinv.2.2.2.2⟩

/-- C1 witness: the invariant holds in the state reached from
`initialize()` on a (min 1, max 2) pool after acquiring the one idle
wrapper. -/
theorem pool_acquire_release_invariant_witness :
    (∀ w ∈ (PoolState.mk [] (insert 0 ∅) 1 false).idle,
      w ∉ (PoolState.mk [] (insert 0 ∅) 1 false).inUse) ∧
    (PoolState.mk [] (insert 0 ∅) 1 false).idle.length
      + (PoolState.mk [] (insert 0 ∅) 1 false).inUse.card ≤ 2 :=
  pool_acquire_release_invariant (PoolConfig.mk 1 2) _ (by decide)
    (PoolReachable.step PoolReachable.init
      (PoolStep.acquireIdle (initPool (PoolConfig.mk 1 2)) 0 [] rfl (by decide)))

/-- C8: `commit` and `rollback` compute identical results on every
manager state: an error "Transaction <id> not found" when the id has no
entry, and otherwise deletion of the bookkeeping entry with an empty list
of database statements issued — neither ever sends `COMMIT` or
`ROLLBACK` to a connection. -/
theorem tx_commit_rollback_equiv :
    ∀ (st : TxState) (txId : String),
      tx_commit txId st = tx_rollback txId st ∧
      (st.lookup txId = none →
        tx_commit txId st = .error ("Transaction " ++ txId ++ " not found")) ∧
      (∀ log, st.lookup txId = some log →
        tx_commit txId st = .ok (st.eraseP (fun e => e.1 == txId), [])) := by
  intro st txId
  refine ⟨rfl, ?_, ?_⟩
  · intro h
    simp [tx_commit, h]
  · intro log h
    simp [tx_commit, h]

/-- C8 witness: the theorem applied at a one-transaction state, for a
missing id and for the present id. -/
theorem tx_commit_rollback_equiv_witness :
    tx_commit "t2" [("t1", [])] = .error "Transaction t2 not found" ∧
    tx_commit "t1" [("t1", [])] = .ok ([], []) := by
  constructor
  · exact (tx_commit_rollback_equiv [("t1", [])] "t2").2.1 (by decide)
  · have h := (tx_commit_rollback_equiv [("t1", [])] "t1").2.2 [] (by decide)
    simpa using h

end Fusion
